import Mathlib

/-!
Verification of `bridge/src/main_to_side_sign.rs` (parity-bridge).

The Rust module implements a `Future` (`MainToSideSign`) that relays one
`HomeBridge.Deposit` event from the main chain to the side chain:
check whether it was already relayed, otherwise sign and submit the relay
transaction and wait for its receipt.  The embedding below models:

* bytes as `List Nat` (each element a byte value), with big-endian encoding
  of machine words (`beBytes`) and decoding (`natOfBytes`);
* panics (`expect`) and fallible parsing as `Except`/`Option` results;
* futures-0.1 `Poll<T, E>` as `Except Err (Async α)`;
* the pending cross-chain futures stored in the `State` enum as records of
  the call that created them, each carried inside a `Timeout` wrapper
  (duration plus inner future), mirroring the Rust `State<T>` variants
  `Timeout<IsMainToSideSignedOnSide<T>>`, `Timeout<Transaction<T>>`,
  `Timeout<FromErr<CallResult<Option<TransactionReceipt>, T::Out>, _>>`;
* one call to `MainToSideSign::poll` as a function of the task and an
  environment `Env` giving the outcome each pending future's own poll
  would report during this call.  `poll` additionally records the list of
  facade operations it invoked, so that claims about "sign-and-submit is
  called / not called" are statable.
-/

namespace Bridge

/-- Big-endian encoding of `x` into `n` bytes (an `H256` is `beBytes 32`,
an ABI word likewise). -/
def beBytes : Nat → Nat → List Nat
  | 0, _ => []
  | n + 1, x => x / 256 ^ n % 256 :: beBytes n x

/-- Big-endian value of a byte list. -/
def natOfBytes : List Nat → Nat
  | [] => 0
  | b :: bs => b * 256 ^ bs.length + natOfBytes bs

/-- `web3::types::Log`: topics, raw data bytes, and the optional hash of the
transaction that produced the log (absent while unmined). -/
structure Log where
  topics : List Nat
  data : List Nat
  transactionHash : Option Nat

/-- `error::Error` of the bridge, restricted to the kinds relevant here:
transport timeout, RPC failure, malformed event (the `expect` panics of the
source, mapped to error results in the embedding), and `chain_err` context
wrapping (the message text is elided). -/
inductive Err where
  | timedOut
  | rpc
  | malformedEvent
  | chained (inner : Err)

/-- Modelled from the spec: the error classification of §7 — transport
timeouts and RPC failures are retryable, a malformed event is not, and
`chain_err` context wrapping preserves the classification. -/
def Err.retryable : Err → Bool
  | .timedOut => true
  | .rpc => true
  | .malformedEvent => false
  | .chained e => e.retryable

/-- topic0 of the `HomeBridge.Deposit` event (from the fixture in
`test_deposit_relay_payload`). -/
def depositEventTopic : Nat :=
  0xe1fffcc4923d04b559f4d29a8bfc6cda04eb5b0d3c460751c2402c5c5cc9109c

/-- the 4-byte method selector of `ForeignBridge.deposit()` (from the
expected payload in `test_deposit_relay_payload`). -/
def depositSelector : List Nat := [0x26, 0xb3, 0x29, 0x3f]

/-- `HomeBridge::default().events().deposit().parse_log`: succeeds iff the
single topic is the Deposit event signature and the data is exactly two
32-byte ABI words; yields the recipient address (the low 20 bytes of the
first word) and the value (the second word). -/
def parse_log (topics : List Nat) (data : List Nat) : Option (Nat × Nat) :=
  if topics = [depositEventTopic] ∧ data.length = 64 then
    some (natOfBytes (data.take 32) % 256 ^ 20, natOfBytes (data.drop 32))
  else
    none

/-- takes `deposit_log` which must be a `HomeBridge.Deposit` event and
returns the payload for the call to `ForeignBridge.deposit()`.  The source's
`expect` panics (missing `transaction_hash`, failed `parse_log`) become
`Except.error Err.malformedEvent`.  The final expression of the Rust
function is absent from the excerpt; it is Modelled from the spec: the
payload is the method selector followed by the ABI encoding of
(recipient, value, source transaction hash), matching the expected bytes of
`test_deposit_relay_payload`. -/
def deposit_relay_payload (web3_log : Log) : Except Err (List Nat) :=
  match web3_log.transactionHash with
  | none => .error .malformedEvent
  | some tx_hash =>
    match parse_log web3_log.topics web3_log.data with
    | none => .error .malformedEvent
    | some (recipient, value) =>
      .ok (depositSelector ++ beBytes 32 recipient ++ beBytes 32 value ++ beBytes 32 tx_hash)

/-- `web3::types::TransactionReceipt`, restricted to the fields the spec
talks about: the mined transaction's hash and its inclusion block. -/
structure TransactionReceipt where
  transaction_hash : Nat
  block_number : Nat

/-- Modelled from the spec: the `SideContract` configuration of
`side_contract.rs` (not part of the excerpt) — immutable authority identity,
destination contract address, and the configured per-call timeout
duration. -/
structure SideContract where
  authority_address : Nat
  contract_address : Nat
  timeout_duration : Nat

/-- `tokio_timer::Timeout<F>`: a pending future together with the timeout
duration it was wrapped with. -/
structure Timeout (α : Type) where
  duration : Nat
  future : α

/-- the pending `side_contract::IsMainToSideSignedOnSide` query, recorded as
the arguments it was created with. -/
structure IsMainToSideSignedOnSide where
  main_tx_hash : Nat
  authority : Nat

/-- the pending `helpers::Transaction` (sign-and-submit), recorded as the
arguments `sign_main_to_side` was invoked with. -/
structure Transaction where
  recipient : Nat
  value : Nat
  main_tx_hash : Nat

/-- the pending `CallResult<Option<TransactionReceipt>, _>` receipt query,
recorded as the side-chain transaction hash it polls for. -/
structure ReceiptQuery where
  side_tx_hash : Nat

/-- the `State<T>` enum of `MainToSideSign`: each non-terminal variant holds
its pending future inside a `Timeout` wrapper, per the Rust variant types. -/
inductive State where
  | awaitHasSigned (f : Timeout IsMainToSideSignedOnSide)
  | awaitTxSent (f : Timeout Transaction)
  | awaitTxReceipt (f : Timeout ReceiptQuery)
  | hasAlreadySigned

/-- `Future` responsible for doing a single relay from `main` to `side`.
The `recipient` and `value` fields are read by `poll`
(`self.recipient`, `self.value`); their declaration and initialization are
absent from the excerpt and are Modelled from the spec: the decoded payload
fields (recipient, value) of the Deposit event. -/
structure MainToSideSign where
  main_tx_hash : Nat
  state : State
  side : SideContract
  recipient : Nat
  value : Nat

/-- Modelled from the spec: the facade's idempotency check
`is_main_to_side_signed_on_side`, exposed to the state machine already
wrapped with the configured timeout (§4.2). -/
def SideContract.is_main_to_side_signed_on_side (s : SideContract) (h a : Nat) :
    Timeout IsMainToSideSignedOnSide :=
  ⟨s.timeout_duration, ⟨h, a⟩⟩

/-- Modelled from the spec: the facade's sign-and-submit operation
`sign_main_to_side`, wrapped with the configured timeout (§4.2). -/
def SideContract.sign_main_to_side (s : SideContract) (r v h : Nat) :
    Timeout Transaction :=
  ⟨s.timeout_duration, ⟨r, v, h⟩⟩

/-- the receipt query for a side-chain transaction hash
(`transaction_receipt`); its `Timeout` wrapper follows the declared type of
`State::AwaitTxReceipt` and §4.2's "every operation … already wrapped with
the configured timeout". -/
def SideContract.transaction_receipt (s : SideContract) (h : Nat) :
    Timeout ReceiptQuery :=
  ⟨s.timeout_duration, ⟨h⟩⟩

/-- `MainToSideSign::new`: reads the log's `transaction_hash` (the source
`expect`s it; the embedding returns a malformed-event error), decodes the
Deposit payload fields used later by `poll` (Modelled from the spec: §6
"any event missing a transaction identifier is rejected before entering the
state machine"; the decode mirrors `parse_log`), and starts in the
checking-already-relayed state holding the pending idempotency check for
this transaction hash and the configured authority address. -/
def MainToSideSign.new (log : Log) (side : SideContract) :
    Except Err MainToSideSign :=
  match log.transactionHash with
  | none => .error .malformedEvent
  | some main_tx_hash =>
    match parse_log log.topics log.data with
    | none => .error .malformedEvent
    | some (recipient, value) =>
      .ok { main_tx_hash := main_tx_hash
            state := .awaitHasSigned
              (side.is_main_to_side_signed_on_side main_tx_hash side.authority_address)
            side := side
            recipient := recipient
            value := value }

/-- futures-0.1 `Async<T>`. -/
inductive Async (α : Type) where
  | ready (a : α)
  | notReady

/-- the terminal result of the relay: either the already-relayed shortcut
(the source's `State::HasAlreadySigned`) or completion with the observed
receipt. -/
inductive Outcome where
  | alreadyRelayed
  | done (receipt : TransactionReceipt)

/-- outcome each pending cross-chain future's own poll reports during one
call to `MainToSideSign::poll`. -/
structure Env where
  isRelayed : Except Err (Async Bool)
  txSent : Except Err (Async Nat)
  receipt : Except Err (Async (Option TransactionReceipt))

/-- a facade operation invoked by `poll`, with the exact arguments. -/
inductive FacadeCall where
  | signSubmit (recipient value main_tx_hash : Nat)
  | receiptQuery (side_tx_hash : Nat)

/-- result of one call to `MainToSideSign::poll`: the returned
`Poll<TransactionReceipt, Error>` value, the task after the call (`poll`
takes `&mut self`), and the facade operations invoked during the call. -/
structure PollResult where
  out : Except Err (Async Outcome)
  task : MainToSideSign
  calls : List FacadeCall

/-- the `State::AwaitTxReceipt` arm of the `poll` loop: errors are wrapped
with `chain_err` context; a receipt ends the future as `Ready`.  A poll
reporting `Ready(None)` (transaction not yet mined) is Modelled from the
spec: "repeatedly poll for the destination transaction's receipt until
mined" — the task stays in the same state, not ready. -/
def pollReceipt (t : MainToSideSign) (f : Timeout ReceiptQuery) (env : Env)
    (calls : List FacadeCall) : PollResult :=
  match env.receipt with
  | .error e => ⟨.error (.chained e), { t with state := .awaitTxReceipt f }, calls⟩
  | .ok .notReady => ⟨.ok .notReady, { t with state := .awaitTxReceipt f }, calls⟩
  | .ok (.ready none) => ⟨.ok .notReady, { t with state := .awaitTxReceipt f }, calls⟩
  | .ok (.ready (some r)) =>
      ⟨.ok (.ready (.done r)), { t with state := .awaitTxReceipt f }, calls⟩

/-- the `State::AwaitTxSent` arm of the `poll` loop: errors are wrapped with
`chain_err` context; on `Ready(side_tx_hash)` the loop continues into the
receipt state for that hash. -/
def pollSent (t : MainToSideSign) (f : Timeout Transaction) (env : Env)
    (calls : List FacadeCall) : PollResult :=
  match env.txSent with
  | .error e => ⟨.error (.chained e), { t with state := .awaitTxSent f }, calls⟩
  | .ok .notReady => ⟨.ok .notReady, { t with state := .awaitTxSent f }, calls⟩
  | .ok (.ready h) =>
      pollReceipt t (t.side.transaction_receipt h) env (calls ++ [.receiptQuery h])

/-- `MainToSideSign::poll`: the loop over `self.state`.  From the checking
state, `Ready(true)` moves to the terminal `HasAlreadySigned` state (the
loop arm returning from that state is absent from the excerpt and is
Modelled from the spec: AlreadyRelayed is a terminal success);
`Ready(false)` invokes `sign_main_to_side(self.recipient, self.value,
self.main_tx_hash)` and the loop continues into the sent state. -/
def MainToSideSign.poll (t : MainToSideSign) (env : Env) : PollResult :=
  match t.state with
  | .awaitHasSigned _ =>
    match env.isRelayed with
    | .error e => ⟨.error e, t, []⟩
    | .ok .notReady => ⟨.ok .notReady, t, []⟩
    | .ok (.ready true) =>
        ⟨.ok (.ready .alreadyRelayed), { t with state := .hasAlreadySigned }, []⟩
    | .ok (.ready false) =>
        pollSent t (t.side.sign_main_to_side t.recipient t.value t.main_tx_hash) env
          [.signSubmit t.recipient t.value t.main_tx_hash]
  | .awaitTxSent f => pollSent t f env []
  | .awaitTxReceipt f => pollReceipt t f env []
  | .hasAlreadySigned => ⟨.ok (.ready .alreadyRelayed), t, []⟩

/-- options for relays from main to side (`LogToMainToSideSign`). -/
structure LogToMainToSideSign where
  side : SideContract

/-- from the options and a log a relay future can be made
(`LogToFuture::log_to_future`); `self.side.clone()` is sharing of the
immutable configuration. -/
def LogToMainToSideSign.log_to_future (o : LogToMainToSideSign) (log : Log) :
    Except Err MainToSideSign :=
  MainToSideSign.new log o.side

/-- the pending operation of a state is wrapped in a `Timeout` of duration
`d`; terminal states hold no pending operation. -/
def State.wrappedWith (s : State) (d : Nat) : Bool :=
  match s with
  | .awaitHasSigned f => f.duration == d
  | .awaitTxSent f => f.duration == d
  | .awaitTxReceipt f => f.duration == d
  | .hasAlreadySigned => true

/-- the pending operation of the task's current state fails with error `e`
in environment `env`. -/
def pendingFailsWith (t : MainToSideSign) (env : Env) (e : Err) : Prop :=
  match t.state with
  | .awaitHasSigned _ => env.isRelayed = .error e
  | .awaitTxSent _ => env.txSent = .error e
  | .awaitTxReceipt _ => env.receipt = .error e
  | .hasAlreadySigned => False

/-! ### Concrete sample inputs (the fixtures of the module's tests) -/

/-- recipient of the test fixture. -/
def sampleRecipient : Nat := 0xaff3454fce5edbc8cca8697c15331677e6ebcccc

/-- value of the `test_deposit_relay_payload` fixture. -/
def sampleValue : Nat := 0xf0

/-- source transaction hash of the test fixtures. -/
def sampleMainTxHash : Nat :=
  0x884edad9ce6fa2440d8a54cc123490eb96d2768479d49ff9c7366125a9424364

/-- the Deposit log of `test_deposit_relay_payload`. -/
def sampleLog : Log :=
  ⟨[depositEventTopic], beBytes 32 sampleRecipient ++ beBytes 32 sampleValue,
   some sampleMainTxHash⟩

/-- a side-contract configuration (authority `0x01`, contract `0xdd1`,
timeout 5). -/
def sampleSide : SideContract := ⟨0x01, 0xdd1, 5⟩

/-- a mined receipt on the side chain. -/
def sampleReceipt : TransactionReceipt := ⟨0x1db8, 3⟩

/-- a freshly created relay task for `sampleLog`, in the checking state. -/
def sampleTaskCheck : MainToSideSign :=
  { main_tx_hash := sampleMainTxHash
    state := .awaitHasSigned
      (sampleSide.is_main_to_side_signed_on_side sampleMainTxHash
        sampleSide.authority_address)
    side := sampleSide
    recipient := sampleRecipient
    value := sampleValue }

/-- the same task after submission started. -/
def sampleTaskSent : MainToSideSign :=
  { sampleTaskCheck with
    state := .awaitTxSent
      (sampleSide.sign_main_to_side sampleRecipient sampleValue sampleMainTxHash) }

/-- the same task while awaiting the receipt of side transaction `0x2aa2`. -/
def sampleTaskReceipt : MainToSideSign :=
  { sampleTaskCheck with
    state := .awaitTxReceipt (sampleSide.transaction_receipt 0x2aa2) }

/-- environment: the idempotency check reports `true`. -/
def envRelayedTrue : Env := ⟨.ok (.ready true), .ok .notReady, .ok .notReady⟩

/-- environment: the idempotency check reports `false`, nothing else ready. -/
def envNotRelayed : Env := ⟨.ok (.ready false), .ok .notReady, .ok .notReady⟩

/-- environment: the submission reports side transaction hash `0x2aa2`. -/
def envTxSent : Env := ⟨.ok .notReady, .ok (.ready 0x2aa2), .ok .notReady⟩

/-- environment: the receipt poll reports the transaction is not yet mined. -/
def envReceiptNone : Env := ⟨.ok .notReady, .ok .notReady, .ok (.ready none)⟩

/-- environment: the receipt poll reports `sampleReceipt`. -/
def envReceiptSome : Env :=
  ⟨.ok .notReady, .ok .notReady, .ok (.ready (some sampleReceipt))⟩

/-- environment: the idempotency check times out. -/
def envCheckTimedOut : Env := ⟨.error .timedOut, .ok .notReady, .ok .notReady⟩

/-! ### Byte-encoding lemmas -/

theorem beBytes_length (n x : Nat) : (beBytes n x).length = n := by
  induction n generalizing x with
  | zero => rfl
  | succ n ih => simp [beBytes, ih]

theorem natOfBytes_beBytes (n x : Nat) : natOfBytes (beBytes n x) = x % 256 ^ n := by
  induction n generalizing x with
  | zero => simp [beBytes, natOfBytes, Nat.mod_one]
  | succ n ih =>
    simp only [beBytes, natOfBytes, beBytes_length, ih]
    rw [pow_succ, Nat.mod_mul]
    ring

theorem parse_log_encoded (r v : Nat) (hr : r < 256 ^ 20) (hv : v < 256 ^ 32) :
    parse_log [depositEventTopic] (beBytes 32 r ++ beBytes 32 v) = some (r, v) := by
  have hlen : (beBytes 32 r).length = 32 := beBytes_length 32 r
  have hmodr : r % 256 ^ 32 % 256 ^ 20 = r := by
    rw [Nat.mod_mod_of_dvd _ (pow_dvd_pow 256 (by norm_num))]
    exact Nat.mod_eq_of_lt hr
  unfold parse_log
  rw [if_pos]
  · rw [List.take_left' hlen, List.drop_left' hlen, natOfBytes_beBytes,
      natOfBytes_beBytes, hmodr, Nat.mod_eq_of_lt hv]
  · exact ⟨rfl, by simp [List.length_append, beBytes_length]⟩

/-! ### Claim C2: payload of a mined Deposit log -/

/-- C2: for every mined Deposit-event log — single Deposit topic, data the
two ABI words of a recipient address and a value, transaction hash present —
`deposit_relay_payload` returns exactly the 4-byte selector `26b3293f`
followed by the ABI encoding of (recipient, value, source transaction
hash). -/
theorem deposit_relay_payload_correct (r v h : Nat)
    (hr : r < 256 ^ 20) (hv : v < 256 ^ 32) :
    deposit_relay_payload ⟨[depositEventTopic], beBytes 32 r ++ beBytes 32 v, some h⟩ =
      .ok (depositSelector ++ beBytes 32 r ++ beBytes 32 v ++ beBytes 32 h) := by
  simp only [deposit_relay_payload, parse_log_encoded r v hr hv]

/-- C2 witness: the fixture of `test_deposit_relay_payload` — recipient
`0xaff3454fce5edbc8cca8697c15331677e6ebcccc`, value `0xf0`, transaction hash
`0x884e…4364` — produces selector ++ padded recipient ++ padded value ++
hash. -/
theorem deposit_relay_payload_correct_witness :
    sampleRecipient < 256 ^ 20 ∧ sampleValue < 256 ^ 32 ∧
      deposit_relay_payload sampleLog =
        .ok (depositSelector ++ beBytes 32 sampleRecipient ++
          beBytes 32 sampleValue ++ beBytes 32 sampleMainTxHash) :=
  ⟨by decide, by decide,
   deposit_relay_payload_correct sampleRecipient sampleValue sampleMainTxHash
     (by decide) (by decide)⟩

/-- the expected payload bytes of `test_deposit_relay_payload`, literally:
`26b3293f` ++ the padded recipient ++ the padded value ++ the transaction
hash. -/
theorem deposit_relay_payload_test_vector :
    deposit_relay_payload sampleLog = .ok
      [0x26, 0xb3, 0x29, 0x3f,
       0x00, 0x00, 0x00, 0x00, 0x00, 0x00, 0x00, 0x00, 0x00, 0x00, 0x00, 0x00,
       0xaf, 0xf3, 0x45, 0x4f, 0xce, 0x5e, 0xdb, 0xc8, 0xcc, 0xa8, 0x69, 0x7c,
       0x15, 0x33, 0x16, 0x77, 0xe6, 0xeb, 0xcc, 0xcc,
       0x00, 0x00, 0x00, 0x00, 0x00, 0x00, 0x00, 0x00, 0x00, 0x00, 0x00, 0x00,
       0x00, 0x00, 0x00, 0x00, 0x00, 0x00, 0x00, 0x00, 0x00, 0x00, 0x00, 0x00,
       0x00, 0x00, 0x00, 0x00, 0x00, 0x00, 0x00, 0xf0,
       0x88, 0x4e, 0xda, 0xd9, 0xce, 0x6f, 0xa2, 0x44, 0x0d, 0x8a, 0x54, 0xcc,
       0x12, 0x34, 0x90, 0xeb, 0x96, 0xd2, 0x76, 0x84, 0x79, 0xd4, 0x9f, 0xf9,
       0xc7, 0x36, 0x61, 0x25, 0xa9, 0x42, 0x43, 0x64] := by
  rfl

/-! ### Claim C9: payload determinism -/

/-- C9: payload construction is deterministic — two invocations of
`deposit_relay_payload` on equal input logs yield byte-identical payloads. -/
theorem deposit_relay_payload_deterministic (l1 l2 : Log) (h : l1 = l2) :
    deposit_relay_payload l1 = deposit_relay_payload l2 := by
  rw [h]

/-- C9 witness at the test fixture log. -/
theorem deposit_relay_payload_deterministic_witness :
    deposit_relay_payload sampleLog = deposit_relay_payload sampleLog :=
  deposit_relay_payload_deterministic sampleLog sampleLog rfl

/-! ### Claim C6: malformed events are rejected up front -/

/-- C6: a malformed log — one whose topics/data do not parse as the Deposit
event, or whose transaction hash is absent — is rejected as the
non-retryable malformed-event error both by the payload construction and by
`MainToSideSign::new`; no relay task is produced from it. -/
theorem malformed_event_rejected (log : Log)
    (h : log.transactionHash = none ∨ parse_log log.topics log.data = none) :
    deposit_relay_payload log = .error .malformedEvent
    ∧ Err.malformedEvent.retryable = false
    ∧ ∀ side : SideContract, MainToSideSign.new log side = .error .malformedEvent := by
  obtain ⟨tp, dt, th⟩ := log
  cases th with
  | none => exact ⟨rfl, rfl, fun _ => rfl⟩
  | some x =>
    rcases h with h | h
    · exact absurd h (by simp)
    · refine ⟨?_, rfl, fun side => ?_⟩
      · simp only [deposit_relay_payload] at *
        simp [h]
      · simp only [MainToSideSign.new] at *
        simp [h]

/-- C6 witness: a log with no topics, no data and no transaction hash. -/
theorem malformed_event_rejected_witness :
    deposit_relay_payload ⟨[], [], none⟩ = .error .malformedEvent
    ∧ Err.malformedEvent.retryable = false
    ∧ ∀ side : SideContract,
        MainToSideSign.new ⟨[], [], none⟩ side = .error .malformedEvent :=
  malformed_event_rejected ⟨[], [], none⟩ (Or.inl rfl)

/-! ### Claim C8: every task starts in the checking state -/

theorem new_ok_state (log : Log) (side : SideContract) (t : MainToSideSign)
    (h : MainToSideSign.new log side = .ok t) :
    log.transactionHash = some t.main_tx_hash
    ∧ t.side = side
    ∧ t.state = .awaitHasSigned
        (side.is_main_to_side_signed_on_side t.main_tx_hash side.authority_address) := by
  obtain ⟨tp, dt, th⟩ := log
  cases th with
  | none => exact absurd h (by simp [MainToSideSign.new])
  | some x =>
    cases hp : parse_log tp dt with
    | none =>
      rw [MainToSideSign.new] at h
      simp only [hp] at h
      exact absurd h (by simp)
    | some p =>
      obtain ⟨r, v⟩ := p
      rw [MainToSideSign.new] at h
      simp only [hp, Except.ok.injEq] at h
      subst h
      exact ⟨rfl, rfl, rfl⟩

/-- C8: every relay task instance starts in the checking-already-relayed
state: `MainToSideSign::new` yields a task whose state is the idempotency
check for the log's source transaction hash and the configured authority,
and every invocation of `log_to_future` is exactly `new` on the stored
side configuration, so a re-invocation for the same event produces a fresh
machine with that same initial state. -/
theorem initial_state_checking (log : Log) (side : SideContract) :
    (∀ t : MainToSideSign, MainToSideSign.new log side = .ok t →
        log.transactionHash = some t.main_tx_hash
        ∧ t.side = side
        ∧ t.state = .awaitHasSigned
            (side.is_main_to_side_signed_on_side t.main_tx_hash
              side.authority_address))
    ∧ LogToMainToSideSign.log_to_future ⟨side⟩ log = MainToSideSign.new log side :=
  ⟨fun t h => new_ok_state log side t h, rfl⟩

/-- C8 witness: `new` on the fixture log yields `sampleTaskCheck`, whose
state is the pending idempotency check for the fixture hash. -/
theorem initial_state_checking_witness :
    (sampleLog.transactionHash = some sampleTaskCheck.main_tx_hash
      ∧ sampleTaskCheck.side = sampleSide
      ∧ sampleTaskCheck.state = .awaitHasSigned
          (sampleSide.is_main_to_side_signed_on_side sampleTaskCheck.main_tx_hash
            sampleSide.authority_address))
    ∧ LogToMainToSideSign.log_to_future ⟨sampleSide⟩ sampleLog =
        MainToSideSign.new sampleLog sampleSide :=
  ⟨(initial_state_checking sampleLog sampleSide).1 sampleTaskCheck (by rfl),
   (initial_state_checking sampleLog sampleSide).2⟩

/-! ### Helper lemmas about one step of `poll` -/

theorem pollReceipt_task (t : MainToSideSign) (f : Timeout ReceiptQuery)
    (env : Env) (c : List FacadeCall) :
    (pollReceipt t f env c).task = { t with state := .awaitTxReceipt f } := by
  cases hr : env.receipt with
  | error e => simp [pollReceipt, hr]
  | ok a =>
    cases a with
    | notReady => simp [pollReceipt, hr]
    | ready o => cases o <;> simp [pollReceipt, hr]

theorem pollSent_task (t : MainToSideSign) (f : Timeout Transaction)
    (env : Env) (c : List FacadeCall) :
    ∃ s : State, (pollSent t f env c).task = { t with state := s } := by
  cases hs : env.txSent with
  | error e => exact ⟨.awaitTxSent f, by simp [pollSent, hs]⟩
  | ok a =>
    cases a with
    | notReady => exact ⟨.awaitTxSent f, by simp [pollSent, hs]⟩
    | ready h =>
      exact ⟨.awaitTxReceipt (t.side.transaction_receipt h),
        by simp [pollSent, hs, pollReceipt_task]⟩

theorem poll_task_shape (t : MainToSideSign) (env : Env) :
    ∃ s : State, (t.poll env).task = { t with state := s } := by
  obtain ⟨m, st, sd, r, v⟩ := t
  cases st with
  | awaitHasSigned f =>
    cases hc : env.isRelayed with
    | error e => exact ⟨.awaitHasSigned f, by simp [MainToSideSign.poll, hc]⟩
    | ok a =>
      cases a with
      | notReady => exact ⟨.awaitHasSigned f, by simp [MainToSideSign.poll, hc]⟩
      | ready b =>
        cases b with
        | true => exact ⟨.hasAlreadySigned, by simp [MainToSideSign.poll, hc]⟩
        | false =>
          obtain ⟨s, hs⟩ := pollSent_task ⟨m, .awaitHasSigned f, sd, r, v⟩
            (sd.sign_main_to_side r v m) env
            [.signSubmit r v m]
          exact ⟨s, by simpa [MainToSideSign.poll, hc] using hs⟩
  | awaitTxSent f =>
    obtain ⟨s, hs⟩ := pollSent_task ⟨m, .awaitTxSent f, sd, r, v⟩ f env []
    exact ⟨s, by simpa [MainToSideSign.poll] using hs⟩
  | awaitTxReceipt f =>
    exact ⟨.awaitTxReceipt f, by simp [MainToSideSign.poll, pollReceipt_task]⟩
  | hasAlreadySigned => exact ⟨.hasAlreadySigned, by simp [MainToSideSign.poll]⟩

/-! ### Claim C1: idempotency check positive — terminal, no submission -/

/-- C1: when the already-relayed check of the pending task reports `true`,
`poll` moves the machine to the terminal `HasAlreadySigned` state, resolves
with the already-relayed success outcome, and invokes no facade operation —
in particular sign-and-submit is never invoked for this task instance, on
this call or on any later call. -/
theorem already_relayed_terminal (t : MainToSideSign) (env : Env)
    (f : Timeout IsMainToSideSignedOnSide)
    (hs : t.state = .awaitHasSigned f) (hc : env.isRelayed = .ok (.ready true)) :
    (t.poll env).out = .ok (.ready .alreadyRelayed)
    ∧ (t.poll env).task.state = .hasAlreadySigned
    ∧ (t.poll env).calls = []
    ∧ ∀ env2 : Env, ((t.poll env).task.poll env2).calls = [] := by
  obtain ⟨m, st, sd, r, v⟩ := t
  subst hs
  refine ⟨?_, ?_, ?_, fun env2 => ?_⟩ <;> simp [MainToSideSign.poll, hc]

/-- C1 witness: the fixture task with a `true` check resolves already-relayed
without any facade call. -/
theorem already_relayed_terminal_witness :
    (sampleTaskCheck.poll envRelayedTrue).out = .ok (.ready .alreadyRelayed)
    ∧ (sampleTaskCheck.poll envRelayedTrue).task.state = .hasAlreadySigned
    ∧ (sampleTaskCheck.poll envRelayedTrue).calls = []
    ∧ ∀ env2 : Env, ((sampleTaskCheck.poll envRelayedTrue).task.poll env2).calls = [] :=
  already_relayed_terminal sampleTaskCheck envRelayedTrue _ rfl rfl

/-! ### Claim C3: idempotency check negative — sign-and-submit -/

/-- C3: when the check reports `false`, `poll` invokes sign-and-submit with
exactly (recipient, value, source transaction hash) and leaves the machine
in the submitting state holding that pending submission; and from the
submitting state, a successful submission moves the machine to the
awaiting-receipt state carrying the returned side-chain transaction hash. -/
theorem check_false_sign_and_submit (t : MainToSideSign) (env : Env) :
    (∀ f : Timeout IsMainToSideSignedOnSide,
        t.state = .awaitHasSigned f →
        env.isRelayed = .ok (.ready false) →
        env.txSent = .ok .notReady →
        (t.poll env).out = .ok .notReady
        ∧ (t.poll env).calls = [.signSubmit t.recipient t.value t.main_tx_hash]
        ∧ (t.poll env).task.state =
            .awaitTxSent (t.side.sign_main_to_side t.recipient t.value t.main_tx_hash))
    ∧ (∀ (f : Timeout Transaction) (h : Nat),
        t.state = .awaitTxSent f →
        env.txSent = .ok (.ready h) →
        (t.poll env).task.state = .awaitTxReceipt (t.side.transaction_receipt h)) := by
  constructor
  · intro f hs hc hn
    obtain ⟨m, st, sd, r, v⟩ := t
    subst hs
    refine ⟨?_, ?_, ?_⟩ <;> simp [MainToSideSign.poll, pollSent, hc, hn]
  · intro f h hs hsent
    obtain ⟨m, st, sd, r, v⟩ := t
    subst hs
    simp [MainToSideSign.poll, pollSent, hsent, pollReceipt_task]

/-- C3 witness: the fixture task submits exactly
(`sampleRecipient`, `sampleValue`, `sampleMainTxHash`) when the check is
`false`, and moves to awaiting the receipt of hash `0x2aa2` once the
submission succeeds. -/
theorem check_false_sign_and_submit_witness :
    ((sampleTaskCheck.poll envNotRelayed).out = .ok .notReady
      ∧ (sampleTaskCheck.poll envNotRelayed).calls =
          [.signSubmit sampleTaskCheck.recipient sampleTaskCheck.value
            sampleTaskCheck.main_tx_hash]
      ∧ (sampleTaskCheck.poll envNotRelayed).task.state =
          .awaitTxSent (sampleTaskCheck.side.sign_main_to_side
            sampleTaskCheck.recipient sampleTaskCheck.value
            sampleTaskCheck.main_tx_hash))
    ∧ (sampleTaskSent.poll envTxSent).task.state =
        .awaitTxReceipt (sampleTaskSent.side.transaction_receipt 0x2aa2) :=
  ⟨(check_false_sign_and_submit sampleTaskCheck envNotRelayed).1 _ rfl rfl rfl,
   (check_false_sign_and_submit sampleTaskSent envTxSent).2 _ 0x2aa2 rfl rfl⟩

/-! ### Claim C4: receipt polling until mined -/

/-- C4: in the awaiting-receipt state, a poll reporting "no receipt yet"
(either the underlying future not ready, or ready with `None`) is not an
error and leaves the machine in the same awaiting-receipt state; a poll
observing a receipt resolves the task with the done outcome carrying that
full receipt. -/
theorem awaiting_receipt_poll (t : MainToSideSign) (env : Env)
    (f : Timeout ReceiptQuery) (hs : t.state = .awaitTxReceipt f) :
    (env.receipt = .ok (.ready none) →
        (t.poll env).out = .ok .notReady
        ∧ (t.poll env).task.state = .awaitTxReceipt f)
    ∧ (env.receipt = .ok .notReady →
        (t.poll env).out = .ok .notReady
        ∧ (t.poll env).task.state = .awaitTxReceipt f)
    ∧ (∀ r : TransactionReceipt, env.receipt = .ok (.ready (some r)) →
        (t.poll env).out = .ok (.ready (.done r))) := by
  obtain ⟨m, st, sd, rec, v⟩ := t
  subst hs
  refine ⟨fun hn => ⟨?_, ?_⟩, fun hn => ⟨?_, ?_⟩, fun r hn => ?_⟩ <;>
    simp [MainToSideSign.poll, pollReceipt, hn]

/-- C4 witness: the fixture task stays in the awaiting-receipt state on a
`None` poll and resolves done with `sampleReceipt` when it is mined. -/
theorem awaiting_receipt_poll_witness :
    ((sampleTaskReceipt.poll envReceiptNone).out = .ok .notReady
      ∧ (sampleTaskReceipt.poll envReceiptNone).task.state =
          .awaitTxReceipt (sampleSide.transaction_receipt 0x2aa2))
    ∧ (sampleTaskReceipt.poll envReceiptSome).out =
        .ok (.ready (.done sampleReceipt)) :=
  ⟨(awaiting_receipt_poll sampleTaskReceipt envReceiptNone _ rfl).1 rfl,
   (awaiting_receipt_poll sampleTaskReceipt envReceiptSome _ rfl).2.2 sampleReceipt rfl⟩

/-! ### Claim C5: every pending operation carries the configured timeout -/

theorem pollReceipt_wrapped (t : MainToSideSign) (f : Timeout ReceiptQuery)
    (env : Env) (c : List FacadeCall) (hf : f.duration = t.side.timeout_duration) :
    (pollReceipt t f env c).task.state.wrappedWith t.side.timeout_duration = true := by
  rw [pollReceipt_task]
  simp [State.wrappedWith, hf]

theorem pollSent_wrapped (t : MainToSideSign) (f : Timeout Transaction)
    (env : Env) (c : List FacadeCall) (hf : f.duration = t.side.timeout_duration) :
    (pollSent t f env c).task.state.wrappedWith t.side.timeout_duration = true := by
  cases hs : env.txSent with
  | error e => simp [pollSent, hs, State.wrappedWith, hf]
  | ok a =>
    cases a with
    | notReady => simp [pollSent, hs, State.wrappedWith, hf]
    | ready h =>
      simp only [pollSent, hs]
      exact pollReceipt_wrapped t _ env _ rfl

/-- C5: in every state, the pending cross-chain operation is wrapped in the
configured timeout of the side-contract configuration: `poll` preserves
this wrapping across every transition it makes, and `MainToSideSign::new`
establishes it. -/
theorem timeout_wrapping_invariant (t : MainToSideSign) (env : Env)
    (hw : t.state.wrappedWith t.side.timeout_duration = true) :
    (t.poll env).task.state.wrappedWith t.side.timeout_duration = true
    ∧ ∀ (log : Log) (side : SideContract) (t2 : MainToSideSign),
        MainToSideSign.new log side = .ok t2 →
        t2.state.wrappedWith t2.side.timeout_duration = true := by
  constructor
  · obtain ⟨m, st, sd, r, v⟩ := t
    cases st with
    | awaitHasSigned f =>
      cases hc : env.isRelayed with
      | error e => simpa [MainToSideSign.poll, hc] using hw
      | ok a =>
        cases a with
        | notReady => simpa [MainToSideSign.poll, hc] using hw
        | ready b =>
          cases b with
          | true => simp [MainToSideSign.poll, hc, State.wrappedWith]
          | false =>
            have heq : (MainToSideSign.mk m (.awaitHasSigned f) sd r v).poll env =
                pollSent ⟨m, .awaitHasSigned f, sd, r, v⟩
                  (SideContract.sign_main_to_side sd r v m) env
                  [.signSubmit r v m] := by
              simp [MainToSideSign.poll, hc]
            rw [heq]
            exact pollSent_wrapped _ _ env _ rfl
    | awaitTxSent f =>
      simp only [State.wrappedWith, beq_iff_eq] at hw
      exact pollSent_wrapped ⟨m, .awaitTxSent f, sd, r, v⟩ f env [] hw
    | awaitTxReceipt f =>
      simp only [State.wrappedWith, beq_iff_eq] at hw
      exact pollReceipt_wrapped ⟨m, .awaitTxReceipt f, sd, r, v⟩ f env [] hw
    | hasAlreadySigned => simp [MainToSideSign.poll, State.wrappedWith]
  · intro log side t2 h
    obtain ⟨-, hside, hstate⟩ := new_ok_state log side t2 h
    rw [hstate, hside]
    simp [State.wrappedWith, SideContract.is_main_to_side_signed_on_side]

/-- C5 witness: the wrapping invariant holds of the fixture task, is
preserved by a poll that starts the submission, and is established by `new`
on the fixture log. -/
theorem timeout_wrapping_invariant_witness :
    (sampleTaskCheck.poll envNotRelayed).task.state.wrappedWith
        sampleTaskCheck.side.timeout_duration = true
    ∧ sampleTaskCheck.state.wrappedWith sampleTaskCheck.side.timeout_duration = true :=
  ⟨(timeout_wrapping_invariant sampleTaskCheck envNotRelayed rfl).1,
   (timeout_wrapping_invariant sampleTaskCheck envNotRelayed rfl).2
     sampleLog sampleSide sampleTaskCheck (by rfl)⟩

/-! ### Claim C7: poll always classifies — never drops, never panics -/

theorem pollReceipt_out_shape (t : MainToSideSign) (f : Timeout ReceiptQuery)
    (env : Env) (c : List FacadeCall) :
    (pollReceipt t f env c).out = .ok .notReady
    ∨ (∃ e, (pollReceipt t f env c).out = .error e)
    ∨ ∃ r, (pollReceipt t f env c).out = .ok (.ready (.done r)) := by
  cases hr : env.receipt with
  | error e => exact Or.inr (Or.inl ⟨.chained e, by simp [pollReceipt, hr]⟩)
  | ok a =>
    cases a with
    | notReady => exact Or.inl (by simp [pollReceipt, hr])
    | ready o =>
      cases o with
      | none => exact Or.inl (by simp [pollReceipt, hr])
      | some r => exact Or.inr (Or.inr ⟨r, by simp [pollReceipt, hr]⟩)

theorem pollSent_out_shape (t : MainToSideSign) (f : Timeout Transaction)
    (env : Env) (c : List FacadeCall) :
    (pollSent t f env c).out = .ok .notReady
    ∨ (∃ e, (pollSent t f env c).out = .error e)
    ∨ ∃ r, (pollSent t f env c).out = .ok (.ready (.done r)) := by
  cases hs : env.txSent with
  | error e => exact Or.inr (Or.inl ⟨.chained e, by simp [pollSent, hs]⟩)
  | ok a =>
    cases a with
    | notReady => exact Or.inl (by simp [pollSent, hs])
    | ready h =>
      simp only [pollSent, hs]
      exact pollReceipt_out_shape t _ env _

/-- C7: every call to `poll` either resolves with a terminal success
(already-relayed or done with a receipt), reports not-ready, or returns a
classified error value; and whenever the pending operation of the current
state fails (timeout or RPC failure), `poll` returns an error of the same
retryability classification — the event is never silently dropped and the
embedding has no panic path. -/
theorem poll_never_drops (t : MainToSideSign) (env : Env) :
    ((t.poll env).out = .ok .notReady
      ∨ (∃ e, (t.poll env).out = .error e)
      ∨ (t.poll env).out = .ok (.ready .alreadyRelayed)
      ∨ ∃ r, (t.poll env).out = .ok (.ready (.done r)))
    ∧ ∀ e : Err, pendingFailsWith t env e →
        ∃ e2, (t.poll env).out = .error e2 ∧ e2.retryable = e.retryable := by
  obtain ⟨m, st, sd, r, v⟩ := t
  constructor
  · cases st with
    | awaitHasSigned f =>
      cases hc : env.isRelayed with
      | error e => exact Or.inr (Or.inl ⟨e, by simp [MainToSideSign.poll, hc]⟩)
      | ok a =>
        cases a with
        | notReady => exact Or.inl (by simp [MainToSideSign.poll, hc])
        | ready b =>
          cases b with
          | true =>
            exact Or.inr (Or.inr (Or.inl (by simp [MainToSideSign.poll, hc])))
          | false =>
            have heq : (MainToSideSign.mk m (.awaitHasSigned f) sd r v).poll env =
                pollSent ⟨m, .awaitHasSigned f, sd, r, v⟩
                  (SideContract.sign_main_to_side sd r v m) env
                  [.signSubmit r v m] := by
              simp [MainToSideSign.poll, hc]
            rw [heq]
            rcases pollSent_out_shape ⟨m, .awaitHasSigned f, sd, r, v⟩
                (SideContract.sign_main_to_side sd r v m) env
                [.signSubmit r v m] with h | ⟨e, h⟩ | ⟨rr, h⟩
            · exact Or.inl h
            · exact Or.inr (Or.inl ⟨e, h⟩)
            · exact Or.inr (Or.inr (Or.inr ⟨rr, h⟩))
    | awaitTxSent f =>
      rcases pollSent_out_shape ⟨m, .awaitTxSent f, sd, r, v⟩ f env []
        with h | ⟨e, h⟩ | ⟨rr, h⟩
      · exact Or.inl h
      · exact Or.inr (Or.inl ⟨e, h⟩)
      · exact Or.inr (Or.inr (Or.inr ⟨rr, h⟩))
    | awaitTxReceipt f =>
      rcases pollReceipt_out_shape ⟨m, .awaitTxReceipt f, sd, r, v⟩ f env []
        with h | ⟨e, h⟩ | ⟨rr, h⟩
      · exact Or.inl h
      · exact Or.inr (Or.inl ⟨e, h⟩)
      · exact Or.inr (Or.inr (Or.inr ⟨rr, h⟩))
    | hasAlreadySigned => exact Or.inr (Or.inr (Or.inl rfl))
  · intro e he
    cases st with
    | awaitHasSigned f =>
      replace he : env.isRelayed = .error e := he
      exact ⟨e, by simp [MainToSideSign.poll, he], rfl⟩
    | awaitTxSent f =>
      replace he : env.txSent = .error e := he
      exact ⟨.chained e, by simp [MainToSideSign.poll, pollSent, he], rfl⟩
    | awaitTxReceipt f =>
      replace he : env.receipt = .error e := he
      exact ⟨.chained e, by simp [MainToSideSign.poll, pollReceipt, he], rfl⟩
    | hasAlreadySigned =>
      replace he : False := he
      exact he.elim

/-- C7 witness: a timed-out idempotency check on the fixture task yields a
retryable error result from `poll`. -/
theorem poll_never_drops_witness :
    ∃ e2, (sampleTaskCheck.poll envCheckTimedOut).out = .error e2
      ∧ e2.retryable = Err.timedOut.retryable :=
  (poll_never_drops sampleTaskCheck envCheckTimedOut).2 .timedOut rfl

/-! ### Claim C10: poll mutates only the state field -/

/-- C10: every call to `poll`, in every state and on every outcome, leaves
the task's `main_tx_hash`, its side-contract configuration, and the decoded
`recipient` and `value` fields unchanged — only the `state` field is
mutated. -/
theorem poll_frame (t : MainToSideSign) (env : Env) :
    (t.poll env).task.main_tx_hash = t.main_tx_hash
    ∧ (t.poll env).task.side = t.side
    ∧ (t.poll env).task.recipient = t.recipient
    ∧ (t.poll env).task.value = t.value := by
  obtain ⟨s, hs⟩ := poll_task_shape t env
  rw [hs]
  exact ⟨rfl, rfl, rfl, rfl⟩

end Bridge
